import Mathlib

/-!
Shallow embedding of the `a2anet-js` OpenAI agent executor
(`src/executors/openai.ts`) together with the zod schemas from
`src/types/openai.ts` (the `unnamed/part_000` source file), and proofs of
the frozen claims about it.

Modelling conventions:
* `JSON.parse` is an external library call; definitions that use it take a
  `jsonParse : String → Option Json` parameter, where `none` models a thrown
  `SyntaxError` (caught by the surrounding `try`/`catch`).
* `uuidv4()` draws are modelled by an injective generator `uuidv4 : Nat → String`
  applied to a threaded counter: the n-th draw of the collision-free generator.
* Timestamps (`new Date().toISOString()`) are elided: no claim mentions them.
* JavaScript exceptions are modelled with `Except String`; a function whose
  Lean type has no `Except` cannot raise.
* JavaScript string truthiness (`if (x)`, `x || y`) is modelled explicitly:
  `undefined`, `null` and `""` are falsy.
-/

namespace A2ANet

/-- JSON values: the result type of a successful `JSON.parse`. -/
inductive Json where
  | null : Json
  | bool (b : Bool) : Json
  | num (n : Int) : Json
  | str (s : String) : Json
  | arr (elems : List Json) : Json
  | obj (fields : List (String × Json)) : Json

/-- The A2A protocol task states (`TaskState` of the a2a sdk). -/
inductive TaskState where
  | submitted
  | working
  | inputRequired
  | completed
  | canceled
  | failed
  | rejected
  | authRequired
  | unknown
deriving DecidableEq

/-- The judge-assignable task states: `TaskStateSchema`, the `z.enum` of
`"input-required" | "completed" | "failed" | "rejected" | "auth-required"`. -/
inductive JudgeTaskState where
  | inputRequired
  | completed
  | failed
  | rejected
  | authRequired
deriving DecidableEq

/-- Embedding of a judge-assignable state into the full protocol state set. -/
def JudgeTaskState.toTaskState : JudgeTaskState → TaskState
  | .inputRequired => .inputRequired
  | .completed => .completed
  | .failed => .failed
  | .rejected => .rejected
  | .authRequired => .authRequired

/-- The artifact `part` union of `ArtifactSchema`:
`TextPartSchema` (`kind: "text"`) or `DataPartSchema` (`kind: "data"`, a
stringified JSON object). -/
inductive ArtifactPart where
  | text (text : String)
  | data (data : String)
deriving DecidableEq

/-- `ArtifactSchema`: name, description, and one part. -/
structure Artifact where
  name : String
  description : String
  part : ArtifactPart
deriving DecidableEq

/-- `StructuredResponse` (`z.infer` of `StructuredResponseSchema`): the judge
agent's output shape.  `artifacts` is `.optional().nullable()`; `none` models
both an absent and a `null` field (both are falsy wherever the executor reads
the field). -/
structure StructuredResponse where
  task_state : JudgeTaskState
  artifacts : Option (List Artifact)
deriving DecidableEq

/-- A protocol message/artifact `Part` as built by the executor: text parts,
data parts (holding a parsed JSON value), and file parts (bytes + media type). -/
inductive A2APart where
  | text (text : String)
  | data (data : Json)
  | file (bytes : String) (mimeType : String)

/-- The `metadata` object the executor attaches to an emitted message
(timestamps elided): plain, tool-call tagged, or tool-call-result tagged. -/
inductive MessageMeta where
  | plain
  | toolCall (toolCallId : String) (toolCallName : String)
  | toolCallResult (toolCallId : String) (toolCallName : String)

/-- The agent-role message the executor attaches to a status update
(`kind: "message"`, `role: "agent"`; the taskId/contextId fields repeat the
event's own and are elided). -/
structure AgentMessage where
  messageId : String
  parts : List A2APart
  metadata : MessageMeta

/-- A part of the incoming protocol user message (`userMessage.parts`): only
the `text` kind is consumed by the executor. -/
inductive InPart where
  | text (text : String)
  | otherPart

/-- The incoming protocol user message. -/
structure UserMessage where
  parts : List InPart

/-- The protocol events the executor publishes: the task-creation object, a
status-update event, and an artifact-update event (timestamps elided). -/
inductive A2AEvent where
  | taskCreated (taskId : String) (contextId : String) (state : TaskState)
      (history : List UserMessage)
  | statusUpdate (taskId : String) (contextId : String) (state : TaskState)
      (message : Option AgentMessage) (final : Bool)
  | artifactUpdate (taskId : String) (contextId : String) (artifactId : String)
      (name : String) (description : String) (parts : List A2APart)

/-- The n-th draw of `uuidv4()`: a collision-free identifier generator, modelled
by an injective function of the draw counter. -/
def uuidv4 (n : Nat) : String :=
  String.mk (List.replicate (n + 1) 'u')

theorem uuidv4_injective : Function.Injective uuidv4 := by
  intro m n h
  have hdata : List.replicate (m + 1) 'u' = List.replicate (n + 1) 'u' := by
    injection h
  have hlen := congrArg List.length hdata
  simp [List.length_replicate] at hlen
  exact hlen

/-- JavaScript truthiness of an optional string field (`undefined`/`""` falsy). -/
def strTruthy : Option String → Bool
  | none => false
  | some s => !s.isEmpty

/-- `x || uuidv4()` on an optional string id, threading the uuid draw counter:
returns the chosen identifier and the updated counter. -/
def idOrUuid (id : Option String) (fresh : Nat) : String × Nat :=
  if strTruthy id then ((id.getD ""), fresh)
  else (uuidv4 fresh, fresh + 1)

/-- JavaScript template-literal rendering of a possibly-undefined string
(an `undefined` id stringifies to `"undefined"` inside a template literal). -/
def jsTemplateStr : Option String → String
  | some s => s
  | none => "undefined"

/-! ## Run items consumed from the agent runtime -/

/-- One fragment of `item.rawItem.content` of a `message_output_item`: only the
`output_text` type carries text the executor extracts; audio/refusal/image
content is the other case. -/
inductive MessageContentItem where
  | outputText (text : String)
  | otherContent

/-- A `RunMessageOutputItem`, reduced to the fields the executor reads:
`rawItem.id` and `rawItem.content`. -/
structure RunMessageOutputItem where
  id : Option String
  content : List MessageContentItem

/-- The `rawItem` of a `tool_call_item`, by sub-kind tag.  For
`function_call` the runtime supplies `callId`, `name` and an `arguments`
string; for `hosted_tool_call` the id and the arguments are optional;
`computer_call` and any other sub-kind carry nothing the executor reads
before dispatching on the tag (besides `rawItem.id` for the message id). -/
inductive ToolCallRawItem where
  | functionCall (id : Option String) (callId : String) (name : String) (arguments : String)
  | hostedToolCall (id : Option String) (name : String) (arguments : Option String)
  | computerCall (id : Option String)
  | otherToolCall (id : Option String)

/-- The `output` union of a `function_call_result`: text, image, or other. -/
inductive FunctionResultOutput where
  | text (text : String)
  | image (data : String) (mediaType : String)
  | otherOutput

/-- The `rawItem` of a `tool_call_output_item`, by sub-kind tag. -/
inductive ToolCallOutputRawItem where
  | functionCallResult (id : Option String) (callId : String) (name : String)
      (output : FunctionResultOutput)
  | computerCallResult (id : Option String)
  | otherToolCallOutput (id : Option String)

/-- The `rawItem.id` field, read before the sub-kind dispatch in
`handleToolCallOutputItem`. -/
def ToolCallOutputRawItem.rawId : ToolCallOutputRawItem → Option String
  | .functionCallResult id _ _ _ => id
  | .computerCallResult id => id
  | .otherToolCallOutput id => id

/-! ## Event translator (§4.3): one handler per run-item shape -/

/-- The `parts` local of `handleMessageOutputItem`: map each `output_text`
content fragment to a text part and drop every other fragment. -/
def messageOutputParts (content : List MessageContentItem) : List A2APart :=
  content.filterMap fun contentItem =>
    match contentItem with
    | .outputText t => some (A2APart.text t)
    | .otherContent => none

/-- `handleMessageOutputItem`: extract the `output_text` fragments as text
parts; if none, emit nothing; otherwise emit one non-terminal `working`
status-update carrying them.  Returns the emitted events and the updated uuid
counter (the counter is drawn for the message id even when no event is
emitted, as in the source, where `item.rawItem.id || uuidv4()` runs first). -/
def handleMessageOutputItem (item : RunMessageOutputItem) (taskId contextId : String)
    (fresh : Nat) : List A2AEvent × Nat :=
  let idDraw := idOrUuid item.id fresh
  let parts : List A2APart := messageOutputParts item.content
  if parts.isEmpty then ([], idDraw.2)
  else
    ([A2AEvent.statusUpdate taskId contextId .working
        (some { messageId := idDraw.1, parts := parts, metadata := .plain }) false],
      idDraw.2)

/-- The `try JSON.parse … catch` block shared by both tool-call sub-kinds and
by data artifacts: a data part on parse success, a text part with the raw
string on parse failure. -/
def jsonOrTextParts (jsonParse : String → Option Json) (s : String) : List A2APart :=
  match jsonParse s with
  | some j => [A2APart.data j]
  | none => [A2APart.text s]

/-- `handleToolCallItem`: dispatch on the tool-call sub-kind.  `function_call`
and `hosted_tool_call` emit one non-terminal `working` status-update whose
message is tagged with tool-call metadata; a falsy `arguments` yields no part,
otherwise the JSON-with-text-fallback policy applies; `computer_call` throws;
any other sub-kind emits nothing.  The thrown error is the `Except.error`
result. -/
def handleToolCallItem (jsonParse : String → Option Json) (item : ToolCallRawItem)
    (taskId contextId : String) (fresh : Nat) :
    Except String (List A2AEvent × Nat) :=
  match item with
  | .functionCall id callId name arguments =>
    let parts : List A2APart :=
      if arguments.isEmpty then [] else jsonOrTextParts jsonParse arguments
    .ok ([A2AEvent.statusUpdate taskId contextId .working
        (some { messageId := jsTemplateStr id ++ "_" ++ callId, parts := parts,
                metadata := .toolCall callId name }) false],
      fresh)
  | .hostedToolCall id name arguments =>
    let idDraw := idOrUuid id fresh
    let toolCallId := idDraw.1
    let parts : List A2APart :=
      match arguments with
      | none => []
      | some a => if a.isEmpty then [] else jsonOrTextParts jsonParse a
    .ok ([A2AEvent.statusUpdate taskId contextId .working
        (some { messageId := jsTemplateStr id ++ "_" ++ toolCallId, parts := parts,
                metadata := .toolCall toolCallId name }) false],
      idDraw.2)
  | .computerCall _ =>
    .error "tool_call_item type `computer_call` is not supported."
  | .otherToolCall _ => .ok ([], fresh)

/-- `handleToolCallOutputItem`: the message id is drawn from `rawItem.id`
(or a fresh uuid) before the sub-kind dispatch; `function_call_result`
emits one non-terminal `working` status-update (text output gets the
JSON-with-text-fallback policy, image output a file part);
`computer_call_result` throws; any other sub-kind emits nothing. -/
def handleToolCallOutputItem (jsonParse : String → Option Json)
    (item : ToolCallOutputRawItem) (taskId contextId : String) (fresh : Nat) :
    Except String (List A2AEvent × Nat) :=
  let idDraw := idOrUuid item.rawId fresh
  match item with
  | .functionCallResult _ callId name output =>
    let parts : List A2APart :=
      match output with
      | .text t => jsonOrTextParts jsonParse t
      | .image d mt => [A2APart.file d mt]
      | .otherOutput => []
    .ok ([A2AEvent.statusUpdate taskId contextId .working
        (some { messageId := idDraw.1, parts := parts,
                metadata := .toolCallResult callId name }) false],
      idDraw.2)
  | .computerCallResult _ =>
    .error "tool_call_output_item type `computer_call_result` is not supported."
  | .otherToolCallOutput _ => .ok ([], idDraw.2)

/-! ## Task-completion judge driver (§4.4) -/

/-- The `for (const artifact of artifacts)` loop body of
`handleStructuredResponseArtifacts`: translate the artifact part (text part
directly; data part via the JSON-with-text-fallback policy), draw a fresh
artifact identifier, and emit one artifact-update event per artifact, in
order.  (The source's trailing `else throw` for an artifact part that is
neither text nor data is unreachable under the schema's part union.) -/
def handleStructuredResponseArtifactsList (jsonParse : String → Option Json)
    (taskId contextId : String) : List Artifact → Nat → List A2AEvent × Nat
  | [], fresh => ([], fresh)
  | artifact :: rest, fresh =>
    let parts : List A2APart :=
      match artifact.part with
      | .text t => [A2APart.text t]
      | .data d => jsonOrTextParts jsonParse d
    let ev := A2AEvent.artifactUpdate taskId contextId (uuidv4 fresh)
      artifact.name artifact.description parts
    let restOut := handleStructuredResponseArtifactsList jsonParse taskId contextId rest (fresh + 1)
    (ev :: restOut.1, restOut.2)

/-- `handleStructuredResponseArtifacts`: returns immediately on a falsy
(`null`/absent) artifacts field, otherwise runs the per-artifact loop. -/
def handleStructuredResponseArtifacts (jsonParse : String → Option Json)
    (artifacts : Option (List Artifact)) (taskId contextId : String) (fresh : Nat) :
    List A2AEvent × Nat :=
  match artifacts with
  | none => ([], fresh)
  | some arts => handleStructuredResponseArtifactsList jsonParse taskId contextId arts fresh

/-- `handleStructuredResponse`: on a falsy `finalOutput` publish a single
terminal `unknown` status-update; otherwise publish the artifact-update events
when `task_state` is `completed` and `artifacts` is truthy, then always
publish exactly one terminal status-update carrying the judge's state. -/
def handleStructuredResponse (jsonParse : String → Option Json)
    (finalOutput : Option StructuredResponse) (taskId contextId : String) (fresh : Nat) :
    List A2AEvent × Nat :=
  match finalOutput with
  | none => ([A2AEvent.statusUpdate taskId contextId .unknown none true], fresh)
  | some structuredResponse =>
    let artOut : List A2AEvent × Nat :=
      if structuredResponse.task_state = .completed ∧ structuredResponse.artifacts.isSome then
        handleStructuredResponseArtifacts jsonParse structuredResponse.artifacts
          taskId contextId fresh
      else ([], fresh)
    (artOut.1 ++
        [A2AEvent.statusUpdate taskId contextId structuredResponse.task_state.toTaskState
          none true],
      artOut.2)

/-! ## Session cache (§4.1) -/

/-- A `Session` object from the external session library, identified by its
object identity (identity-equality of JavaScript objects is equality of these
tokens). -/
abbrev Session := Nat

/-- `getSession`: returns `none` when no session provider is configured;
otherwise looks the context id up in the `sessions` map, invoking the provider
and caching its result on a miss.  The provider may throw/reject
(`Except.error`).  Besides the session and the updated map, the result counts
how many times the provider was invoked during the call. -/
def getSession (sessionProvider : Option (String → Except String Session))
    (sessions : List (String × Session)) (contextId : String) :
    Except String (Option Session × List (String × Session) × Nat) :=
  match sessionProvider with
  | none => .ok (none, sessions, 0)
  | some provider =>
    match sessions.lookup contextId with
    | some session => .ok (some session, sessions, 0)
    | none =>
      match provider contextId with
      | .ok session => .ok (some session, (contextId, session) :: sessions, 1)
      | .error e => .error e

/-! ## Zod schemas of `src/types/openai.ts` as decoders on JSON values -/

/-- Field access on a decoded JSON object. -/
def jlookup (fields : List (String × Json)) (key : String) : Option Json :=
  fields.lookup key

/-- `TextPartSchema`: an object whose `kind` is the literal `"text"` and whose
`text` is a string. -/
def TextPartSchemaParse (j : Json) : Option ArtifactPart :=
  match j with
  | .obj fields =>
    match jlookup fields "kind", jlookup fields "text" with
    | some (.str "text"), some (.str t) => some (.text t)
    | _, _ => none
  | _ => none

/-- `DataPartSchema`: an object whose `kind` is the literal `"data"` and whose
`data` is a string. -/
def DataPartSchemaParse (j : Json) : Option ArtifactPart :=
  match j with
  | .obj fields =>
    match jlookup fields "kind", jlookup fields "data" with
    | some (.str "data"), some (.str d) => some (.data d)
    | _, _ => none
  | _ => none

/-- The `z.union([TextPartSchema, DataPartSchema])` of `ArtifactSchema.part`:
tried in declaration order. -/
def ArtifactPartSchemaParse (j : Json) : Option ArtifactPart :=
  match TextPartSchemaParse j with
  | some p => some p
  | none => DataPartSchemaParse j

/-- `ArtifactSchema`: `name` and `description` strings and a `part` union. -/
def ArtifactSchemaParse (j : Json) : Option Artifact :=
  match j with
  | .obj fields =>
    match jlookup fields "name", jlookup fields "description", jlookup fields "part" with
    | some (.str n), some (.str d), some pj =>
      (ArtifactPartSchemaParse pj).map fun p =>
        { name := n, description := d, part := p }
    | _, _, _ => none
  | _ => none

/-- `TaskStateSchema`: the judge-assignable `z.enum`. -/
def TaskStateSchemaParse (j : Json) : Option JudgeTaskState :=
  match j with
  | .str "input-required" => some .inputRequired
  | .str "completed" => some .completed
  | .str "failed" => some .failed
  | .str "rejected" => some .rejected
  | .str "auth-required" => some .authRequired
  | _ => none

/-- The `artifacts` field of `StructuredResponseSchema`:
`z.array(ArtifactSchema).optional().nullable()` — an absent field and a `null`
value both decode to `none`; an array decodes element-wise; any other value is
a validation error. -/
def artifactsFieldParse (fields : List (String × Json)) :
    Option (Option (List Artifact)) :=
  match jlookup fields "artifacts" with
  | none => some none
  | some .null => some none
  | some (.arr elems) => (elems.mapM ArtifactSchemaParse).map some
  | some _ => none

/-- `StructuredResponseSchema`: the base judge-output schema, with no
cross-field constraint between `task_state` and `artifacts`. -/
def StructuredResponseSchemaParse (j : Json) : Option StructuredResponse :=
  match j with
  | .obj fields =>
    match jlookup fields "task_state" with
    | some tj =>
      match TaskStateSchemaParse tj, artifactsFieldParse fields with
      | some ts, some arts => some { task_state := ts, artifacts := arts }
      | _, _ => none
    | none => none
  | _ => none

/-- First `superRefine` issue of
`StructuredResponseWithArtifactsValidationSchema`: `task_state` is not
`completed` yet `artifacts` is truthy and non-empty. -/
def violatesNotCompletedRule (sr : StructuredResponse) : Bool :=
  decide (sr.task_state ≠ .completed) &&
    (match sr.artifacts with
     | some l => decide (l.length > 0)
     | none => false)

/-- Second `superRefine` issue: `task_state` is `completed` yet `artifacts` is
falsy or empty. -/
def violatesCompletedRule (sr : StructuredResponse) : Bool :=
  decide (sr.task_state = .completed) &&
    (match sr.artifacts with
     | none => true
     | some l => decide (l.length = 0))

/-- `StructuredResponseWithArtifactsValidationSchema`: the base schema plus
the `superRefine` that rejects any value raising either issue. -/
def StructuredResponseWithArtifactsValidationSchemaParse (j : Json) :
    Option StructuredResponse :=
  match StructuredResponseSchemaParse j with
  | none => none
  | some sr =>
    if violatesNotCompletedRule sr || violatesCompletedRule sr then none else some sr

/-- The output schema the executor actually wires into the judge agent: the
`taskAgent` field is typed `Agent<unknown, typeof StructuredResponseSchema>`
(src/executors/openai.ts line 31), i.e. the base schema without the
artifacts refinement. -/
def taskAgentOutputSchemaParse : Json → Option StructuredResponse :=
  StructuredResponseSchemaParse

/-- Whether a structured response carries a present and non-empty artifacts
list. -/
def artifactsPresentAndNonempty (sr : StructuredResponse) : Bool :=
  match sr.artifacts with
  | some (_ :: _) => true
  | _ => false

/-! ## MCP lifecycle manager (§4.2) and the execution orchestrator (§4.5) -/

/-- An external MCP tool server, abstracted to the outcomes of its `connect()`
and `close()` calls for the run under consideration. -/
structure MCPServer where
  connectResult : Except String Unit
  closeResult : Except String Unit

/-- One conversation item of the agent runtime: a user message built by
`user(text)`, or any runtime-produced item (abstracted to a tag). -/
inductive AgentInputItem where
  | userText (text : String)
  | runtimeItem (tag : Nat)
deriving DecidableEq

/-- A `run_item_stream_event` payload: the three handled item shapes plus any
other stream event, which the loop ignores. -/
inductive RunItem where
  | messageOutput (item : RunMessageOutputItem)
  | toolCall (item : ToolCallRawItem)
  | toolCallOutput (item : ToolCallOutputRawItem)
  | otherStreamEvent

/-- The outcome of the primary agent's streaming run: the run items delivered
on the stream, in arrival order, and `result.history` after completion. -/
structure RunResult where
  items : List RunItem
  history : List AgentInputItem

/-- The observable effects of one execution: publishing a protocol event,
signalling `finished()`, a `session.addItems(items)` call, and — for the i-th
configured MCP server — a completed close or an individually caught-and-logged
close failure. -/
inductive Effect where
  | publish (e : A2AEvent)
  | finished
  | sessionAddItems (s : Session) (items : List AgentInputItem)
  | serverClosed (i : Nat)
  | serverCloseFailureLogged (i : Nat) (err : String)

/-- `connectMCPServers` over a configured server list: `Promise.all` of the
connects — fails (with the first failing server's error, in list order) if any
connect fails. -/
def connectMCPServers : List MCPServer → Except String Unit
  | [] => .ok ()
  | server :: rest =>
    match server.connectResult with
    | .error e => .error e
    | .ok _ => connectMCPServers rest

/-- The close pass over the servers starting at index `i`: every server's
close is attempted; a close failure is caught and logged for that server
alone.  The result type has no error case: `closeMCPServers` never raises. -/
def closeMCPServersFrom (i : Nat) : List MCPServer → List Effect
  | [] => []
  | server :: rest =>
    (match server.closeResult with
     | .ok _ => Effect.serverClosed i
     | .error e => Effect.serverCloseFailureLogged i e) ::
      closeMCPServersFrom (i + 1) rest

/-- `closeMCPServers` on a configured server list. -/
def closeMCPServers (servers : List MCPServer) : List Effect :=
  closeMCPServersFrom 0 servers

/-- `userMessage.parts.map(p => p.kind === "text" ? user(p.text) : null).filter(...)`. -/
def userMessageItems (m : UserMessage) : List AgentInputItem :=
  m.parts.filterMap fun p =>
    match p with
    | .text t => some (.userText t)
    | .otherPart => none

/-- The `for await` loop over `run_item_stream_event`s: delegate each item to
its handler, publishing the handler's events in arrival order; a handler throw
(unsupported item kind) aborts the loop, keeping the events already published.
Returns the publish effects, the updated uuid counter, and the aborting error
if any. -/
def translateStreamItems (jsonParse : String → Option Json) (taskId contextId : String) :
    List RunItem → Nat → List Effect × Nat × Option String
  | [], fresh => ([], fresh, none)
  | runItem :: rest, fresh =>
    let step : Except String (List A2AEvent × Nat) :=
      match runItem with
      | .messageOutput item => .ok (handleMessageOutputItem item taskId contextId fresh)
      | .toolCall item => handleToolCallItem jsonParse item taskId contextId fresh
      | .toolCallOutput item => handleToolCallOutputItem jsonParse item taskId contextId fresh
      | .otherStreamEvent => .ok ([], fresh)
    match step with
    | .error e => ([], fresh, some e)
    | .ok out =>
      let restOut := translateStreamItems jsonParse taskId contextId rest out.2
      (out.1.map Effect.publish ++ restOut.1, restOut.2.1, restOut.2.2)

/-- The environment of one `execute` call: the request context, the
configuration, and the outcomes of every external call the body makes (each an
`Except`, so every exception path of every step is covered). -/
structure ExecEnv where
  jsonParse : String → Option Json
  taskId : String
  contextId : String
  userMessage : UserMessage
  taskExists : Bool
  sessionProvider : Option (String → Except String Session)
  mcpServers : Option (List MCPServer)
  getItems : Session → Except String (List AgentInputItem)
  runResult : Except String RunResult
  addItemsResult : Except String Unit
  judgeResult : Except String (Option StructuredResponse)

/-- The `if (this.mcpServers) await this.connectMCPServers()` step. -/
def connectStep (env : ExecEnv) : Except String Unit :=
  match env.mcpServers with
  | some servers => connectMCPServers servers
  | none => .ok ()

/-- The body of the `try` block of `execute` (steps 3–8 of §4.5): session
resolution, input assembly, MCP connect, the streaming run with per-item
translation, session persistence, the judge driver, and `finished()`.
Returns the effects performed and the fault that aborted the body, if any. -/
def executeBody (env : ExecEnv) (sessions : List (String × Session)) (fresh : Nat) :
    List Effect × Option String :=
  match getSession env.sessionProvider sessions env.contextId with
  | .error e => ([], some e)
  | .ok sessionOut =>
    let session := sessionOut.1
    let userMessages := userMessageItems env.userMessage
    let inputRes : Except String (List AgentInputItem) :=
      match session with
      | some s => (env.getItems s).map fun sessionHistory => sessionHistory ++ userMessages
      | none => .ok userMessages
    match inputRes with
    | .error e => ([], some e)
    | .ok input =>
      match connectStep env with
      | .error e => ([], some e)
      | .ok _ =>
        match env.runResult with
        | .error e => ([], some e)
        | .ok result =>
          let streamOut := translateStreamItems env.jsonParse env.taskId env.contextId
            result.items fresh
          match streamOut.2.2 with
          | some e => (streamOut.1, some e)
          | none =>
            let persistEffs : List Effect :=
              match session with
              | some s =>
                let newItems := result.history.drop input.length
                if newItems.length > 0 then
                  [Effect.sessionAddItems s (userMessages ++ newItems)]
                else
                  [Effect.sessionAddItems s userMessages]
              | none => []
            match (match session with | some _ => env.addItemsResult | none => .ok ()) with
            | .error e => (streamOut.1 ++ persistEffs, some e)
            | .ok _ =>
              match env.judgeResult with
              | .error e => (streamOut.1 ++ persistEffs, some e)
              | .ok finalOutput =>
                let judgeOut := handleStructuredResponse env.jsonParse finalOutput
                  env.taskId env.contextId streamOut.2.1
                (streamOut.1 ++ persistEffs ++ judgeOut.1.map Effect.publish ++
                    [Effect.finished],
                  none)

/-- The result of `execute`: the ordered effect trace and the fault it
re-raises after cleanup, if any. -/
structure ExecOut where
  trace : List Effect
  fault : Option String

/-- `execute`: publish the `submitted` task object when no task record exists,
publish the non-terminal `working` status-update, run the body, and — in the
`finally` block — close the configured MCP servers on every exit path, then
surface the body's fault. -/
def execute (env : ExecEnv) (sessions : List (String × Session)) (fresh : Nat) : ExecOut :=
  let pre : List Effect :=
    (if env.taskExists then []
     else
       [Effect.publish (A2AEvent.taskCreated env.taskId env.contextId .submitted
          [env.userMessage])]) ++
      [Effect.publish (A2AEvent.statusUpdate env.taskId env.contextId .working none false)]
  let bodyOut := executeBody env sessions fresh
  let closeEffs : List Effect :=
    match env.mcpServers with
    | some servers => closeMCPServers servers
    | none => []
  { trace := pre ++ bodyOut.1 ++ closeEffs, fault := bodyOut.2 }

/-! ## Helper lemmas -/

/-- Spec-side extraction of the `output_text` fragment texts of a message
content list, in original order. -/
def outputTextOf : MessageContentItem → Option String
  | .outputText t => some t
  | .otherContent => none

theorem handleStructuredResponseArtifactsList_length
    (jsonParse : String → Option Json) (t c : String) (arts : List Artifact) (fresh : Nat) :
    (handleStructuredResponseArtifactsList jsonParse t c arts fresh).1.length = arts.length := by
  induction arts generalizing fresh with
  | nil => rfl
  | cons a rest ih => simp [handleStructuredResponseArtifactsList, ih]

theorem handleStructuredResponseArtifactsList_getElem?
    (jsonParse : String → Option Json) (t c : String) (arts : List Artifact) (fresh i : Nat)
    (a : Artifact) (h : arts[i]? = some a) :
    (handleStructuredResponseArtifactsList jsonParse t c arts fresh).1[i]? =
      some (A2AEvent.artifactUpdate t c (uuidv4 (fresh + i)) a.name a.description
        (match a.part with
         | .text s => [A2APart.text s]
         | .data d => jsonOrTextParts jsonParse d)) := by
  revert h
  induction arts generalizing fresh i with
  | nil => intro h; simp at h
  | cons hd rest ih =>
    intro h
    cases i with
    | zero =>
      rw [List.getElem?_cons_zero] at h
      injection h with h
      subst h
      simp [handleStructuredResponseArtifactsList]
    | succ n =>
      rw [List.getElem?_cons_succ] at h
      have := ih (fresh + 1) n h
      have harith : fresh + 1 + n = fresh + (n + 1) := by omega
      rw [harith] at this
      simpa [handleStructuredResponseArtifactsList] using this

/-- A concrete stand-in for `JSON.parse` in witnesses: parses only the two
literal strings `"{}"` and `"7"`. -/
def jsonParseTest : String → Option Json := fun s =>
  if s = "{}" then some (Json.obj [])
  else if s = "7" then some (Json.num 7)
  else none

/-- A concrete text artifact for witnesses. -/
def artifactTextW : Artifact :=
  { name := "Weather Report", description := "A report.", part := .text "sunny" }

/-- A concrete data artifact whose data string does not parse, for witnesses. -/
def artifactDataW : Artifact :=
  { name := "Raw Data", description := "Some data.", part := .data "not json" }

/-- A concrete completed judge output with two artifacts, for witnesses. -/
def srCompletedW : StructuredResponse :=
  { task_state := .completed, artifacts := some [artifactTextW, artifactDataW] }

/-- A concrete message-output item for witnesses: one `output_text` fragment
and one unsupported fragment. -/
def msgItemW : RunMessageOutputItem :=
  { id := some "m1", content := [.outputText "hi", .otherContent] }

/-! ## Claim theorems -/

/-- C5: when the judge agent produces no structured output (a falsy
`finalOutput`), the judge driver emits exactly one terminal status-update with
state `unknown` and no artifact events; the result type has no error case, so
this path never raises. -/
theorem C5_no_structured_output (jsonParse : String → Option Json)
    (t c : String) (fresh : Nat) :
    handleStructuredResponse jsonParse none t c fresh
      = ([A2AEvent.statusUpdate t c .unknown none true], fresh) := rfl

/-- C3: a tool-call item of sub-kind `computer_call` and a tool-call-output
item of sub-kind `computer_call_result` both fail the execution with the
unsupported-kind error, and the error result carries no protocol event; in
the stream loop, reaching such an item aborts the run with that error and
emits no event for the item. -/
theorem C3_computer_call_unsupported (jsonParse : String → Option Json)
    (id oid : Option String) (t c : String) (fresh : Nat) (rest : List RunItem) :
    handleToolCallItem jsonParse (.computerCall id) t c fresh
        = .error "tool_call_item type `computer_call` is not supported."
      ∧ handleToolCallOutputItem jsonParse (.computerCallResult oid) t c fresh
        = .error "tool_call_output_item type `computer_call_result` is not supported."
      ∧ translateStreamItems jsonParse t c (RunItem.toolCall (.computerCall id) :: rest) fresh
        = ([], fresh, some "tool_call_item type `computer_call` is not supported.")
      ∧ translateStreamItems jsonParse t c
          (RunItem.toolCallOutput (.computerCallResult oid) :: rest) fresh
        = ([], fresh, some "tool_call_output_item type `computer_call_result` is not supported.") :=
  ⟨rfl, rfl, rfl, rfl⟩

/-- C10: a structured response claiming `completed` with absent, null or empty
artifacts — the invariant violation the wired schema does not reject — yields
zero artifact-update events and exactly one terminal `completed` status-update,
and (by the total result type) never raises. -/
theorem C10_completed_without_artifacts (jsonParse : String → Option Json)
    (sr : StructuredResponse) (t c : String) (fresh : Nat)
    (hstate : sr.task_state = .completed)
    (harts : sr.artifacts = none ∨ sr.artifacts = some []) :
    handleStructuredResponse jsonParse (some sr) t c fresh
      = ([A2AEvent.statusUpdate t c .completed none true], fresh) := by
  rcases harts with harts | harts <;>
    simp [handleStructuredResponse, handleStructuredResponseArtifacts,
      handleStructuredResponseArtifactsList, hstate, harts, JudgeTaskState.toTaskState]

/-- Witness for C10 at a concrete completed-with-empty-artifacts response. -/
theorem C10_witness :
    ({ task_state := .completed, artifacts := some [] } : StructuredResponse).task_state
        = .completed
      ∧ handleStructuredResponse (fun _ => none)
          (some { task_state := .completed, artifacts := some [] }) "t" "c" 0
        = ([A2AEvent.statusUpdate "t" "c" .completed none true], 0) :=
  ⟨rfl, C10_completed_without_artifacts (fun _ => none) _ "t" "c" 0 rfl (Or.inr rfl)⟩

/-- C1: for a judge output with state `completed` and artifact list `arts`,
the driver emits exactly `arts.length` artifact-update events, one per
artifact in list order — each with a distinct freshly drawn artifact
identifier, a text part taken directly from a text artifact part, and a data
artifact part JSON-parsed into a data part with text fallback — followed by
exactly one terminal (`final = true`) status-update with state `completed`. -/
theorem C1_completed_artifact_events (jsonParse : String → Option Json)
    (sr : StructuredResponse) (arts : List Artifact) (t c : String) (fresh : Nat)
    (hstate : sr.task_state = .completed) (harts : sr.artifacts = some arts) :
    ∃ artEvents : List A2AEvent,
      (handleStructuredResponse jsonParse (some sr) t c fresh).1
          = artEvents ++ [A2AEvent.statusUpdate t c .completed none true]
        ∧ artEvents.length = arts.length
        ∧ (∀ (i : Nat) (a : Artifact), arts[i]? = some a →
            artEvents[i]? = some (A2AEvent.artifactUpdate t c (uuidv4 (fresh + i))
              a.name a.description
              (match a.part with
               | .text s => [A2APart.text s]
               | .data d =>
                 match jsonParse d with
                 | some j => [A2APart.data j]
                 | none => [A2APart.text d])))
        ∧ (∀ i j : Nat, i < arts.length → j < arts.length → i ≠ j →
            uuidv4 (fresh + i) ≠ uuidv4 (fresh + j)) := by
  refine ⟨(handleStructuredResponseArtifactsList jsonParse t c arts fresh).1, ?_, ?_, ?_, ?_⟩
  · simp [handleStructuredResponse, handleStructuredResponseArtifacts, hstate, harts,
      JudgeTaskState.toTaskState]
  · exact handleStructuredResponseArtifactsList_length jsonParse t c arts fresh
  · intro i a h
    have := handleStructuredResponseArtifactsList_getElem? jsonParse t c arts fresh i a h
    simpa [jsonOrTextParts] using this
  · intro i j _ _ hne h
    exact hne (Nat.add_left_cancel (uuidv4_injective h))

/-- Witness for C1 at a concrete completed response with a text artifact and a
non-parsing data artifact. -/
theorem C1_witness :
    srCompletedW.task_state = .completed
      ∧ srCompletedW.artifacts = some [artifactTextW, artifactDataW]
      ∧ ∃ artEvents : List A2AEvent,
          (handleStructuredResponse jsonParseTest (some srCompletedW) "t" "c" 0).1
              = artEvents ++ [A2AEvent.statusUpdate "t" "c" .completed none true]
            ∧ artEvents.length = ([artifactTextW, artifactDataW] : List Artifact).length
            ∧ (∀ (i : Nat) (a : Artifact), ([artifactTextW, artifactDataW] : List Artifact)[i]? = some a →
                artEvents[i]? = some (A2AEvent.artifactUpdate "t" "c" (uuidv4 (0 + i))
                  a.name a.description
                  (match a.part with
                   | .text s => [A2APart.text s]
                   | .data d =>
                     match jsonParseTest d with
                     | some j => [A2APart.data j]
                     | none => [A2APart.text d])))
            ∧ (∀ i j : Nat, i < ([artifactTextW, artifactDataW] : List Artifact).length →
                j < ([artifactTextW, artifactDataW] : List Artifact).length → i ≠ j →
                uuidv4 (0 + i) ≠ uuidv4 (0 + j)) :=
  ⟨rfl, rfl,
    C1_completed_artifact_events jsonParseTest srCompletedW [artifactTextW, artifactDataW]
      "t" "c" 0 rfl rfl⟩

/-- C4: a message-output item with at least one `output_text` fragment yields
exactly one non-terminal (`working`, `final = false`) status-update whose text
parts are exactly the fragments' texts in original order; an item with zero
`output_text` fragments yields no event. -/
theorem C4_message_output_item (item : RunMessageOutputItem) (t c : String) (fresh : Nat) :
    (item.content.filterMap outputTextOf ≠ [] →
      (handleMessageOutputItem item t c fresh).1
        = [A2AEvent.statusUpdate t c .working
            (some { messageId := (idOrUuid item.id fresh).1,
                    parts := (item.content.filterMap outputTextOf).map A2APart.text,
                    metadata := .plain }) false])
    ∧ (item.content.filterMap outputTextOf = [] →
      (handleMessageOutputItem item t c fresh).1 = []) := by
  have hparts : messageOutputParts item.content
      = (item.content.filterMap outputTextOf).map A2APart.text := by
    unfold messageOutputParts
    rw [List.map_filterMap]
    congr 1
    funext ci
    cases ci <;> rfl
  constructor
  · intro h
    have hne : ((item.content.filterMap outputTextOf).map A2APart.text).isEmpty = false := by
      rcases hE : item.content.filterMap outputTextOf with _ | ⟨x, xs⟩
      · exact absurd hE h
      · rfl
    simp [handleMessageOutputItem, hparts, hne]
  · intro h
    simp [handleMessageOutputItem, hparts, h]

/-- Witness for C4: a message item holding one `output_text` fragment and one
unsupported fragment emits exactly one working status-update with that single
text part. -/
theorem C4_witness :
    msgItemW.content.filterMap outputTextOf ≠ []
      ∧ (handleMessageOutputItem msgItemW "t" "c" 0).1
          = [A2AEvent.statusUpdate "t" "c" .working
              (some { messageId := (idOrUuid msgItemW.id 0).1,
                      parts := (msgItemW.content.filterMap outputTextOf).map A2APart.text,
                      metadata := .plain }) false] :=
  ⟨by decide, (C4_message_output_item msgItemW "t" "c" 0).1 (by decide)⟩

/-- Counterexample to C2 as stated: a `function_call` whose `arguments` string
is `""`.  The empty string does not parse as JSON, yet the emitted message
carries no part at all — in particular no text part equal to the raw string —
because the source's `if (rawItem.arguments)` guard skips falsy arguments. -/
theorem C2_counterexample :
    jsonParseTest "" = none
      ∧ handleToolCallItem jsonParseTest
            (.functionCall (some "item1") "call1" "myTool" "") "t" "c" 0
          = .ok ([A2AEvent.statusUpdate "t" "c" .working
              (some { messageId := "item1_call1", parts := [],
                      metadata := .toolCall "call1" "myTool" }) false], 0)
      ∧ A2APart.text "" ∉ ([] : List A2APart) :=
  ⟨rfl, rfl, List.not_mem_nil _⟩

/-- C2 as amended: for a `function_call` or `hosted_tool_call` item with a
non-empty (truthy) arguments string, the emitted status-update's message
contains a data part equal to the parsed JSON value when the arguments parse,
and otherwise a text part equal to the raw arguments string byte-for-byte; a
parse failure is never propagated (the result is `ok` in every case).  When
the arguments string is empty or absent, the emitted message carries no part. -/
theorem C2_tool_call_arguments (jsonParse : String → Option Json) :
    (∀ (id : Option String) (callId name arguments t c : String) (fresh : Nat),
        arguments ≠ "" →
        handleToolCallItem jsonParse (.functionCall id callId name arguments) t c fresh
          = .ok ([A2AEvent.statusUpdate t c .working
              (some { messageId := jsTemplateStr id ++ "_" ++ callId,
                      parts := match jsonParse arguments with
                        | some j => [A2APart.data j]
                        | none => [A2APart.text arguments],
                      metadata := .toolCall callId name }) false], fresh))
      ∧ (∀ (id : Option String) (name arguments t c : String) (fresh : Nat),
          arguments ≠ "" →
          handleToolCallItem jsonParse (.hostedToolCall id name (some arguments)) t c fresh
            = .ok ([A2AEvent.statusUpdate t c .working
                (some { messageId := jsTemplateStr id ++ "_" ++ (idOrUuid id fresh).1,
                        parts := match jsonParse arguments with
                          | some j => [A2APart.data j]
                          | none => [A2APart.text arguments],
                        metadata := .toolCall (idOrUuid id fresh).1 name }) false],
              (idOrUuid id fresh).2))
      ∧ (∀ (id : Option String) (callId name t c : String) (fresh : Nat),
          handleToolCallItem jsonParse (.functionCall id callId name "") t c fresh
            = .ok ([A2AEvent.statusUpdate t c .working
                (some { messageId := jsTemplateStr id ++ "_" ++ callId, parts := [],
                        metadata := .toolCall callId name }) false], fresh))
      ∧ (∀ (id : Option String) (name t c : String) (fresh : Nat)
            (arguments : Option String),
          arguments = none ∨ arguments = some "" →
          handleToolCallItem jsonParse (.hostedToolCall id name arguments) t c fresh
            = .ok ([A2AEvent.statusUpdate t c .working
                (some { messageId := jsTemplateStr id ++ "_" ++ (idOrUuid id fresh).1,
                        parts := [],
                        metadata := .toolCall (idOrUuid id fresh).1 name }) false],
              (idOrUuid id fresh).2)) := by
  have hemp : ("" : String).isEmpty = true := rfl
  refine ⟨?_, ?_, ?_, ?_⟩
  · intro id callId name arguments t c fresh h
    have hne : arguments.isEmpty = false := by
      rw [Bool.eq_false_iff]
      intro hb
      exact h ((String.isEmpty_iff arguments).mp hb)
    simp [handleToolCallItem, jsonOrTextParts, hne]
  · intro id name arguments t c fresh h
    have hne : arguments.isEmpty = false := by
      rw [Bool.eq_false_iff]
      intro hb
      exact h ((String.isEmpty_iff arguments).mp hb)
    simp [handleToolCallItem, jsonOrTextParts, hne]
  · intro id callId name t c fresh
    simp [handleToolCallItem, hemp]
  · intro id name t c fresh arguments h
    rcases h with h | h <;> subst h <;> simp [handleToolCallItem, hemp]

/-- Witness for the amended C2: a parsing and a non-parsing non-empty
arguments string. -/
theorem C2_witness :
    ("{}" : String) ≠ ""
      ∧ handleToolCallItem jsonParseTest (.functionCall (some "i") "c1" "tool" "{}")
            "t" "c" 0
          = .ok ([A2AEvent.statusUpdate "t" "c" .working
              (some { messageId := "i_c1", parts := [A2APart.data (Json.obj [])],
                      metadata := .toolCall "c1" "tool" }) false], 0)
      ∧ ("oops" : String) ≠ ""
      ∧ handleToolCallItem jsonParseTest (.functionCall (some "i") "c1" "tool" "oops")
            "t" "c" 0
          = .ok ([A2AEvent.statusUpdate "t" "c" .working
              (some { messageId := "i_c1", parts := [A2APart.text "oops"],
                      metadata := .toolCall "c1" "tool" }) false], 0) :=
  ⟨by decide,
    (C2_tool_call_arguments jsonParseTest).1 (some "i") "c1" "tool" "{}" "t" "c" 0
      (by decide),
    by decide,
    (C2_tool_call_arguments jsonParseTest).1 (some "i") "c1" "tool" "oops" "t" "c" 0
      (by decide)⟩

theorem closeMCPServersFrom_length (k : Nat) (servers : List MCPServer) :
    (closeMCPServersFrom k servers).length = servers.length := by
  induction servers generalizing k with
  | nil => rfl
  | cons s rest ih => simp [closeMCPServersFrom, ih]

theorem closeMCPServersFrom_getElem? (servers : List MCPServer) (k i : Nat)
    (s : MCPServer) (h : servers[i]? = some s) :
    (closeMCPServersFrom k servers)[i]?
      = some (match s.closeResult with
          | .ok _ => Effect.serverClosed (k + i)
          | .error e => Effect.serverCloseFailureLogged (k + i) e) := by
  revert h
  induction servers generalizing k i with
  | nil => intro h; simp at h
  | cons hd rest ih =>
    intro h
    cases i with
    | zero =>
      rw [List.getElem?_cons_zero] at h
      injection h with h
      subst h
      rcases hc : hd.closeResult with u | e <;> simp [closeMCPServersFrom, hc]
    | succ n =>
      rw [List.getElem?_cons_succ] at h
      have := ih (k + 1) n h
      have harith : k + 1 + n = k + (n + 1) := by omega
      rw [harith] at this
      simpa [closeMCPServersFrom] using this

/-- C6: closing the configured tool servers never raises — the close pass has
no error outcome, attempts every server (one effect per server), and records
each server's result individually, so one server's close failure cannot
prevent the others from being closed; and the close pass is a suffix of the
trace of every `execute` run with servers configured, whatever the body did —
including an exception thrown during session resolution, connect, the
streaming run, persistence, or the judge step (all of which are arbitrary in
the environment). -/
theorem C6_close_servers_every_path :
    (∀ servers : List MCPServer, (closeMCPServers servers).length = servers.length)
      ∧ (∀ (servers : List MCPServer) (i : Nat) (s : MCPServer), servers[i]? = some s →
          (closeMCPServers servers)[i]?
            = some (match s.closeResult with
                | .ok _ => Effect.serverClosed i
                | .error e => Effect.serverCloseFailureLogged i e))
      ∧ (∀ (env : ExecEnv) (sessions : List (String × Session)) (fresh : Nat)
            (servers : List MCPServer), env.mcpServers = some servers →
          closeMCPServers servers <:+ (execute env sessions fresh).trace) := by
  refine ⟨?_, ?_, ?_⟩
  · intro servers
    exact closeMCPServersFrom_length 0 servers
  · intro servers i s h
    have := closeMCPServersFrom_getElem? servers 0 i s h
    simpa using this
  · intro env sessions fresh servers h
    simp only [execute, h]
    exact List.suffix_append _ _

/-- A server whose close fails, for witnesses. -/
def serverBadCloseW : MCPServer := { connectResult := .ok (), closeResult := .error "boom" }

/-- A healthy server, for witnesses. -/
def serverOkW : MCPServer := { connectResult := .ok (), closeResult := .ok () }

/-- An execution environment whose streaming run throws, with the failing
server configured first, for the C6 witness. -/
def envC6W : ExecEnv :=
  { jsonParse := jsonParseTest, taskId := "t", contextId := "c",
    userMessage := { parts := [.text "hello"] }, taskExists := false,
    sessionProvider := none, mcpServers := some [serverBadCloseW, serverOkW],
    getItems := fun _ => .ok [], runResult := .error "runtime exploded",
    addItemsResult := .ok (), judgeResult := .ok none }

/-- Witness for C6: with server 0 failing to close, server 1 is still closed,
and the close pass is a suffix of the trace of a run whose streaming step
threw. -/
theorem C6_witness :
    ([serverBadCloseW, serverOkW] : List MCPServer)[1]? = some serverOkW
      ∧ (closeMCPServers [serverBadCloseW, serverOkW])[1]?
          = some (match serverOkW.closeResult with
              | .ok _ => Effect.serverClosed 1
              | .error e => Effect.serverCloseFailureLogged 1 e)
      ∧ envC6W.mcpServers = some [serverBadCloseW, serverOkW]
      ∧ closeMCPServers [serverBadCloseW, serverOkW] <:+ (execute envC6W [] 0).trace :=
  ⟨rfl,
    C6_close_servers_every_path.2.1 [serverBadCloseW, serverOkW] 1 serverOkW rfl,
    rfl,
    C6_close_servers_every_path.2.2 envC6W [] 0 [serverBadCloseW, serverOkW] rfl⟩

/-- C7: the session cache is idempotent under sequential access — when a
provider is configured and a first `getSession` call for a context id
succeeds, it invoked the provider at most once, and a second sequential call
with the same context id returns the identity-equal `Session` instance,
leaves the cache unchanged, and does not invoke the provider; with no provider
configured, `getSession` always returns absent. -/
theorem C7_session_cache_idempotent :
    (∀ (provider : String → Except String Session)
        (sessions sessions' : List (String × Session)) (contextId : String)
        (s : Session) (k : Nat),
        getSession (some provider) sessions contextId = .ok (some s, sessions', k) →
        k ≤ 1
          ∧ getSession (some provider) sessions' contextId = .ok (some s, sessions', 0))
      ∧ (∀ (sessions : List (String × Session)) (contextId : String),
          getSession none sessions contextId = .ok (none, sessions, 0)) := by
  constructor
  · intro provider sessions sessions' contextId s k h
    simp only [getSession] at h ⊢
    rcases hl : sessions.lookup contextId with _ | s0 <;> rw [hl] at h
    · rcases hp : provider contextId with e | s1 <;> rw [hp] at h <;> simp at h
      obtain ⟨h1, h2, h3⟩ := h
      subst h1
      subst h2
      subst h3
      refine ⟨by omega, ?_⟩
      simp [List.lookup]
    · simp at h
      obtain ⟨h1, h2, h3⟩ := h
      subst h1
      subst h2
      subst h3
      exact ⟨by omega, by simp [hl]⟩
  · intro sessions contextId
    rfl

/-- A session provider for witnesses: always yields session object 7. -/
def providerW : String → Except String Session := fun _ => .ok 7

/-- Witness for C7: a first call on the empty cache caches session 7 with one
provider invocation; the theorem yields the second call's idempotence. -/
theorem C7_witness :
    getSession (some providerW) [] "ctx" = .ok (some 7, [("ctx", 7)], 1)
      ∧ 1 ≤ 1
      ∧ getSession (some providerW) [("ctx", 7)] "ctx" = .ok (some 7, [("ctx", 7)], 0) :=
  ⟨rfl,
    (C7_session_cache_idempotent.1 providerW [] [("ctx", 7)] "ctx" 7 1 rfl).1,
    (C7_session_cache_idempotent.1 providerW [] [("ctx", 7)] "ctx" 7 1 rfl).2⟩

/-- C9: whenever a `Session` exists for the context and the streaming run
completes without an unsupported-kind throw, the trace of `execute` contains
the `session.addItems` call appending the newly-submitted user items plus
every runtime-produced item beyond the original input length — in particular,
when the runtime produced zero new items the user items are still persisted
(the zero-new-items branch coincides with the general expression because
appending the empty new-items list is the identity). -/
theorem C9_session_persistence (env : ExecEnv) (sessions : List (String × Session))
    (fresh : Nat) (s : Session) (st1 : List (String × Session)) (k : Nat)
    (hist : List AgentInputItem) (rr : RunResult)
    (hsess : getSession env.sessionProvider sessions env.contextId = .ok (some s, st1, k))
    (hitems : env.getItems s = .ok hist)
    (hconn : connectStep env = .ok ())
    (hrun : env.runResult = .ok rr)
    (hstream : (translateStreamItems env.jsonParse env.taskId env.contextId rr.items
        fresh).2.2 = none) :
    Effect.sessionAddItems s
        (userMessageItems env.userMessage ++
          rr.history.drop ((hist ++ userMessageItems env.userMessage)).length)
      ∈ (execute env sessions fresh).trace := by
  by_cases hn :
      0 < (rr.history.drop ((hist ++ userMessageItems env.userMessage)).length).length
  · have hn' : hist.length + (userMessageItems env.userMessage).length
        < rr.history.length := by
      rw [List.length_drop, List.length_append] at hn
      omega
    rcases hadd : env.addItemsResult with e | uu
    · simp [execute, executeBody, hsess, hitems, Except.map, hconn, hrun, hstream, hadd, hn']
    · rcases hjud : env.judgeResult with e2 | fo <;>
        simp [execute, executeBody, hsess, hitems, Except.map, hconn, hrun, hstream,
          hadd, hjud, hn']
  · have hz : rr.history.drop ((hist ++ userMessageItems env.userMessage)).length = [] :=
      List.length_eq_zero.mp (by rw [List.length_drop] at hn ⊢; omega)
    have hz' : rr.history.drop
        (hist.length + (userMessageItems env.userMessage).length) = [] := by
      rw [← List.length_append hist (userMessageItems env.userMessage)]
      exact hz
    have hn'' : ¬ hist.length + (userMessageItems env.userMessage).length
        < rr.history.length := by
      rw [List.length_drop, List.length_append] at hn
      omega
    rcases hadd : env.addItemsResult with e | uu
    · simp [execute, executeBody, hsess, hitems, Except.map, hconn, hrun, hstream,
        hadd, hz', hn'']
    · rcases hjud : env.judgeResult with e2 | fo <;>
        simp [execute, executeBody, hsess, hitems, Except.map, hconn, hrun, hstream,
          hadd, hjud, hz', hn'']

/-- The streaming-run outcome for the C9 witness: no stream items, and one
runtime-produced history item beyond the input. -/
def runResultW : RunResult :=
  { items := [],
    history := [AgentInputItem.runtimeItem 0, .userText "hello", .runtimeItem 1] }

/-- An execution environment with a configured session provider, for the C9
witness: the session history holds one prior item and the runtime produces one
new item. -/
def envC9W : ExecEnv :=
  { jsonParse := jsonParseTest, taskId := "t", contextId := "c",
    userMessage := { parts := [.text "hello"] }, taskExists := true,
    sessionProvider := some providerW, mcpServers := none,
    getItems := fun _ => .ok [AgentInputItem.runtimeItem 0],
    runResult := .ok runResultW,
    addItemsResult := .ok (),
    judgeResult := .ok (some { task_state := .failed, artifacts := none }) }

/-- Witness for C9 at the concrete environment: the persisted items are the
user item plus the one runtime-produced item past the input length. -/
theorem C9_witness :
    getSession envC9W.sessionProvider [] envC9W.contextId = .ok (some 7, [("c", 7)], 1)
      ∧ Effect.sessionAddItems 7
          (userMessageItems envC9W.userMessage ++
            runResultW.history.drop
              (([AgentInputItem.runtimeItem 0] ++ userMessageItems envC9W.userMessage)).length)
        ∈ (execute envC9W [] 0).trace :=
  ⟨rfl,
    C9_session_persistence envC9W [] 0 7 [("c", 7)] 1 [AgentInputItem.runtimeItem 0]
      runResultW rfl rfl rfl rfl rfl⟩

theorem validation_issues_iff (sr : StructuredResponse) :
    (violatesNotCompletedRule sr || violatesCompletedRule sr) = false
      ↔ (artifactsPresentAndNonempty sr = true ↔ sr.task_state = .completed) := by
  rcases sr with ⟨ts, arts⟩
  cases ts <;> rcases arts with _ | (_ | ⟨a, l⟩) <;>
    simp [violatesNotCompletedRule, violatesCompletedRule, artifactsPresentAndNonempty]

/-- Counterexample to C8 as stated: the validation actually wired into the
judge agent is the base `StructuredResponseSchema` (the `taskAgent` field's
type argument), and it accepts `task_state: "completed"` with `artifacts`
absent — a violation of the claimed biconditional. -/
theorem C8_counterexample :
    taskAgentOutputSchemaParse (Json.obj [("task_state", Json.str "completed")])
        = some { task_state := .completed, artifacts := none }
      ∧ ({ task_state := .completed, artifacts := none } :
            StructuredResponse).task_state = .completed
      ∧ artifactsPresentAndNonempty { task_state := .completed, artifacts := none }
        = false :=
  ⟨rfl, rfl, rfl⟩

/-- C8 as amended: every structured response accepted by
`StructuredResponseWithArtifactsValidationSchema` — the secondary schema that
carries the invariant, though not the one wired into the judge agent —
satisfies "artifacts present and non-empty iff `task_state = completed`", and
any base-schema-accepted response violating either direction of the
biconditional is rejected by that validation schema. -/
theorem C8_artifacts_validation_schema :
    (∀ (j : Json) (sr : StructuredResponse),
        StructuredResponseWithArtifactsValidationSchemaParse j = some sr →
        (artifactsPresentAndNonempty sr = true ↔ sr.task_state = .completed))
      ∧ (∀ (j : Json) (sr : StructuredResponse),
          StructuredResponseSchemaParse j = some sr →
          ¬(artifactsPresentAndNonempty sr = true ↔ sr.task_state = .completed) →
          StructuredResponseWithArtifactsValidationSchemaParse j = none) := by
  constructor
  · intro j sr h
    unfold StructuredResponseWithArtifactsValidationSchemaParse at h
    rcases hb : StructuredResponseSchemaParse j with _ | sr0 <;> rw [hb] at h <;> simp at h
    obtain ⟨⟨hv1, hv2⟩, rfl⟩ := h
    exact (validation_issues_iff sr0).mp (by simp [hv1, hv2])
  · intro j sr hb hnot
    unfold StructuredResponseWithArtifactsValidationSchemaParse
    rw [hb]
    have hv : (violatesNotCompletedRule sr || violatesCompletedRule sr) = true := by
      rcases hbool : violatesNotCompletedRule sr || violatesCompletedRule sr
      · exact absurd ((validation_issues_iff sr).mp hbool) hnot
      · rfl
    simp [hv]

/-- A JSON artifact value for the C8 witness. -/
def artifactJsonW : Json :=
  Json.obj [("name", Json.str "Weather Report"), ("description", Json.str "A report."),
    ("part", Json.obj [("kind", Json.str "text"), ("text", Json.str "sunny")])]

/-- A JSON judge output accepted by the validation schema, for the C8 witness. -/
def jOkW : Json :=
  Json.obj [("task_state", Json.str "completed"), ("artifacts", Json.arr [artifactJsonW])]

/-- Witness for the amended C8: a valid completed-with-artifact document
satisfies the biconditional, and the violating completed-without-artifacts
document is rejected by the validation schema. -/
theorem C8_witness :
    StructuredResponseWithArtifactsValidationSchemaParse jOkW
        = some { task_state := .completed, artifacts := some [artifactTextW] }
      ∧ (artifactsPresentAndNonempty
            { task_state := .completed, artifacts := some [artifactTextW] } = true
          ↔ ({ task_state := .completed, artifacts := some [artifactTextW] } :
              StructuredResponse).task_state = .completed)
      ∧ StructuredResponseSchemaParse (Json.obj [("task_state", Json.str "completed")])
          = some { task_state := .completed, artifacts := none }
      ∧ StructuredResponseWithArtifactsValidationSchemaParse
          (Json.obj [("task_state", Json.str "completed")]) = none :=
  ⟨rfl,
    C8_artifacts_validation_schema.1 jOkW
      { task_state := .completed, artifacts := some [artifactTextW] } rfl,
    rfl,
    C8_artifacts_validation_schema.2 (Json.obj [("task_state", Json.str "completed")])
      { task_state := .completed, artifacts := none } rfl (by decide)⟩

end A2ANet
